import Mathlib

/-!
Shallow embedding of the mesh control surface of the agentgateway repository:
the `MeshRegistry` (crates/agentgateway/src/management/mesh.rs), the recovery
ledger (crates/agentgateway/src/ledger.rs) and the `/mesh/logs` admin handler
(crates/agentgateway/src/management/admin.rs).

Time is modelled as `Nat` nanoseconds (the unit of `std::time::Instant`
differences); the random generator behind token minting is an explicit
function `Nat → Fin 62` selecting characters of the `Alphanumeric`
distribution; the config-store handler outcome is an explicit boolean
`projOk`; JSON values are a small inductive mirroring `serde_json::Value`
as far as the handlers inspect it.
-/

namespace AgentMesh

/-- A JSON value, as far as the mesh code inspects it (`serde_json::Value`). -/
inductive Json where
  | null
  | bool (b : Bool)
  | num (n : Int)
  | str (s : String)
  | arr (elems : List Json)
  | obj (fields : List (String × Json))

/-- `Value::get(key)` followed by nothing: `Some` only on objects. -/
def Json.get? (j : Json) (k : String) : Option Json :=
  match j with
  | .obj fields => fields.lookup k
  | _ => none

/-- `Value::as_str`. -/
def Json.asStr : Json → Option String
  | .str s => some s
  | _ => none

/-- `Value::as_array`. -/
def Json.asArr : Json → Option (List Json)
  | .arr xs => some xs
  | _ => none

/-- `TransportType` from mesh.rs. -/
inductive TransportType where
  | Sse
  | Streamable
deriving DecidableEq

/-- `MeshHeartbeat` from mesh.rs.  `addr : Option String` stands for the
optional `SocketAddr`, kept opaque. -/
structure MeshHeartbeat where
  service_name : String
  transport : TransportType
  port : Nat
  active_sessions : Nat
  pid : Option Nat
  addr : Option String
  sampling_supported : Bool
  is_blessed : Bool
deriving DecidableEq

/-- `MeshNode` from mesh.rs; `last_seen` is an `Instant` in nanoseconds. -/
structure MeshNode where
  metadata : MeshHeartbeat
  last_seen : Nat
  token : String
deriving DecidableEq

/-- `MeshEvent` from mesh.rs. -/
inductive MeshEvent where
  | NodeUpdated (hb : MeshHeartbeat)
  | NodeRemoved (name : String)
deriving DecidableEq

/-- The node table of `MeshRegistry`: `HashMap<String, MeshNode>` as an
association list whose mutators keep keys unique. -/
structure RegState where
  nodes : List (String × MeshNode)
deriving DecidableEq

/-- `HashMap::insert`: the new binding replaces any binding of the key. -/
def tableInsert (t : List (String × MeshNode)) (k : String) (v : MeshNode) :
    List (String × MeshNode) :=
  (k, v) :: t.filter (fun p => p.1 ≠ k)

/-- `HashMap::remove`. -/
def tableRemove (t : List (String × MeshNode)) (k : String) :
    List (String × MeshNode) :=
  t.filter (fun p => p.1 ≠ k)

/-- The 62 characters of the `rand` crate Alphanumeric distribution. -/
def alphanumChars : List Char :=
  "ABCDEFGHIJKLMNOPQRSTUVWXYZabcdefghijklmnopqrstuvwxyz0123456789".toList

/-- Token minting: `rand::rng().sample_iter(&Alphanumeric).take(32)`,
with the sampler made explicit as a function into `Fin 62`. -/
def mintToken (rand : Nat → Fin 62) : String :=
  String.mk ((List.range 32).map (fun i => alphanumChars.getD (rand i).val 'A'))

/-- Registry-surface error kinds carried by the `anyhow` errors in mesh.rs. -/
inductive MeshError where
  | TokenRequired (name : String)
  | InvalidToken (name : String)
  | ProjectionFailed
deriving DecidableEq

/-- proto `ResourceName` (field `namespace` written `ns`). -/
structure XdsResourceName where
  name : String
  ns : String
deriving DecidableEq

/-- proto `backend_reference::Service`. -/
structure BackendRefService where
  ns : String
  hostname : String
deriving DecidableEq

/-- proto `BackendReference`. -/
structure BackendReference where
  port : Nat
  kind : Option BackendRefService
deriving DecidableEq

/-- proto `McpTarget`. -/
structure XdsMcpTarget where
  name : String
  backend : Option BackendReference
  path : String
  protocol : Nat
deriving DecidableEq

/-- proto `McpBackend`. -/
structure XdsMcpBackend where
  targets : List XdsMcpTarget
  stateful_mode : Nat
  pfx_mode : Nat
deriving DecidableEq

/-- proto `Backend` with its `Kind::Mcp` payload. -/
structure XdsBackend where
  key : String
  name : Option XdsResourceName
  mcp : Option XdsMcpBackend
  inline_policies : List Unit
deriving DecidableEq

/-- `Resource.kind` variants used by the mesh code. -/
inductive ResourceKind where
  | Backend (b : XdsBackend)
deriving DecidableEq

/-- proto `Resource`. -/
structure ADPResource where
  kind : Option ResourceKind
deriving DecidableEq

/-- `XdsUpdate` handed to `stores.binds.handle`. -/
inductive XdsUpdate where
  | Update (name : String) (resource : ADPResource)
  | Remove (name : String)
deriving DecidableEq

/-- One line of the recovery ledger (ledger.rs `LedgerEntry`, timestamp
omitted: wall-clock text is not modelled). -/
structure LedgerEntry where
  service : String
  event : String
  metadata : Json

/-- serde camelCase serialization of `TransportType`. -/
def TransportType.toJson : TransportType → Json
  | .Sse => .str "sse"
  | .Streamable => .str "streamable"

/-- `serde_json::to_value` of a `MeshHeartbeat` (camelCase field names). -/
def heartbeatToJson (hb : MeshHeartbeat) : Json :=
  .obj [("serviceName", .str hb.service_name),
        ("transport", hb.transport.toJson),
        ("port", .num hb.port),
        ("activeSessions", .num hb.active_sessions),
        ("pid", match hb.pid with | some p => .num p | none => .null),
        ("addr", match hb.addr with | some a => .str a | none => .null),
        ("samplingSupported", .bool hb.sampling_supported),
        ("isBlessed", .bool hb.is_blessed)]

/-- The `(path, protocol)` pair selected from the transport in
`project_to_adp`. -/
def transportPath : TransportType → String
  | .Sse => "/sse"
  | .Streamable => "/mcp"

/-- The protocol discriminator selected from the transport in
`project_to_adp`. -/
def protoDisc : TransportType → Nat
  | .Sse => 1
  | .Streamable => 2

/-- `MeshRegistry::project_to_adp`: the `XdsUpdate::Update` handed to the
config-store handler for a heartbeat. -/
def project_to_adp (hb : MeshHeartbeat) : XdsUpdate :=
  let backend_key := "mesh-" ++ hb.service_name
  .Update backend_key
    { kind := some (.Backend
        { key := backend_key,
          name := some { name := hb.service_name, ns := "default" },
          mcp := some
            { targets := [{ name := "primary",
                            backend := some
                              { port := hb.port,
                                kind := some { ns := "default", hostname := "localhost" } },
                            path := transportPath hb.transport,
                            protocol := protoDisc hb.transport }],
              stateful_mode := 0,
              pfx_mode := 0 },
          inline_policies := [] }) }

/-- `MeshRegistry::evict_from_adp`: the `XdsUpdate::Remove` for a name. -/
def evict_from_adp (service_name : String) : XdsUpdate :=
  .Remove ("mesh-" ++ service_name)

/-- Everything one `register` call produces: the returned value, the new
node table, the updates handed to the config store, the ledger lines
appended and the broadcast events sent. -/
structure RegisterOutcome where
  result : Except MeshError String
  state : RegState
  storeUpdates : List XdsUpdate
  journal : List LedgerEntry
  events : List MeshEvent

/-- `MeshRegistry::register`.  `rand` feeds token minting; `projOk` is
whether `stores.binds.handle` succeeds on the projection. -/
def register (self : RegState) (heartbeat : MeshHeartbeat)
    (provided_token : Option String) (now : Nat) (rand : Nat → Fin 62)
    (projOk : Bool) : RegisterOutcome :=
  let name := heartbeat.service_name
  let check : Except MeshError Bool :=
    match self.nodes.lookup name, provided_token with
    | some existing, some tok =>
        if existing.token ≠ tok then .error (.InvalidToken name) else .ok true
    | some _, none => .error (.TokenRequired name)
    | none, _ => .ok false
  match check with
  | .error e =>
      { result := .error e, state := self, storeUpdates := [],
        journal := [], events := [] }
  | .ok is_blessed =>
      let token := provided_token.getD (mintToken rand)
      let stored : MeshHeartbeat := { heartbeat with is_blessed := is_blessed }
      let state' : RegState :=
        ⟨tableInsert self.nodes name
          { metadata := stored, last_seen := now, token := token }⟩
      if projOk then
        { result := .ok token,
          state := state',
          storeUpdates := [project_to_adp heartbeat],
          journal := [{ service := name, event := "register",
                        metadata := heartbeatToJson heartbeat }],
          events := [.NodeUpdated { heartbeat with is_blessed := is_blessed }] }
      else
        { result := .error .ProjectionFailed,
          state := state',
          storeUpdates := [project_to_adp heartbeat],
          journal := [],
          events := [] }

/-- The stale threshold: `Duration::from_secs(90)` in nanoseconds. -/
def staleNanos : Nat := 90 * 1000000000

/-- Everything one reaper pass produces. -/
structure CleanupOutcome where
  state : RegState
  storeUpdates : List XdsUpdate
  journal : List LedgerEntry
  events : List MeshEvent

/-- `MeshRegistry::cleanup_zombies`: one pass of the reaper at time `now`.
`Instant::duration_since` saturates at zero, as Nat subtraction does. -/
def cleanup_zombies (self : RegState) (now : Nat) : CleanupOutcome :=
  let to_remove :=
    (self.nodes.filter (fun p => now - p.2.last_seen > staleNanos)).map Prod.fst
  { state := ⟨to_remove.foldl tableRemove self.nodes⟩,
    storeUpdates := to_remove.map evict_from_adp,
    journal := to_remove.map (fun n =>
      { service := n, event := "evict",
        metadata := .obj [("reason", .str "timeout")] }),
    events := to_remove.map .NodeRemoved }

/-- `MeshRegistry::get_nodes`. -/
def get_nodes (s : RegState) : List MeshHeartbeat :=
  s.nodes.map (fun p => p.2.metadata)

/-- `MeshRegistry::validate_token`. -/
def validate_token (s : RegState) (service_name : String) (token : String) :
    Bool :=
  ((s.nodes.lookup service_name).map (fun n => n.token == token)).getD false

/-- HTTP methods, as far as the handlers match on them. -/
inductive Method where
  | GET
  | POST
  | PUT
  | DELETE
deriving DecidableEq

/-- An HTTP response as the handlers build it. -/
structure HttpResponse where
  status : Nat
  body : String
deriving DecidableEq

/-- One log line forwarded to the host log sink by the logs handler. -/
structure ForwardedLog where
  target : String
  level : String
  service : String
  log : Json

/-- `handle_mesh_logs` from admin.rs.  `token` is the `X-Mesh-Token` header
value; `body = none` is a body that failed to collect or to parse as JSON.
Returns the response together with the log lines forwarded to the sink. -/
def handle_mesh_logs (s : RegState) (method : Method) (token : Option String)
    (body : Option Json) : HttpResponse × List ForwardedLog :=
  match method with
  | .POST =>
    match body with
    | none => ({ status := 400, body := "failed to parse log payload\n" }, [])
    | some payload =>
      let service_name := (((payload.get? "serviceName").bind Json.asStr)).getD "unknown"
      match token with
      | some t =>
        if validate_token s service_name t then
          let logs := (((payload.get? "logs").bind Json.asArr)).getD []
          ({ status := 200, body := "logs processed\n" },
           logs.map (fun l =>
             { target := "mesh_leaf", level := "info",
               service := service_name, log := l }))
        else
          ({ status := 403, body := "invalid mesh token\n" }, [])
      | none => ({ status := 403, body := "invalid mesh token\n" }, [])
  | _ => ({ status := 405, body := "" }, [])

/-- Modelled from the spec: the body shape `\x7bserviceName: string,
logs: array\x7d` that claim C9 reads the 400 rule from. -/
def logsShape (j : Json) : Bool :=
  (((j.get? "serviceName").bind Json.asStr)).isSome &&
  (((j.get? "logs").bind Json.asArr)).isSome

/-- An operation on the registry, for trace properties. -/
inductive Op where
  | reg (hb : MeshHeartbeat) (tok : Option String) (now : Nat)
      (rand : Nat → Fin 62) (projOk : Bool)
  | cleanup (now : Nat)
  | getNodes
  | validate (n : String) (t : String)

/-- State transition of one operation.  `getNodes` and `validate` only read
under the read lock and return values, so they leave the table unchanged. -/
def applyOp (s : RegState) : Op → RegState
  | .reg hb tok now rand projOk => (register s hb tok now rand projOk).state
  | .cleanup now => (cleanup_zombies s now).state
  | .getNodes => s
  | .validate _ _ => s

/-- State after a sequence of operations. -/
def applyOps (s : RegState) (ops : List Op) : RegState :=
  ops.foldl applyOp s

/-- The token stored for a service name, when present. -/
def tokenOf (s : RegState) (n : String) : Option String :=
  (s.nodes.lookup n).map (fun node => node.token)

/-- The service stays in the table at every state along the trace
(including the initial and final states). -/
def presentAlong (s : RegState) (n : String) : List Op → Bool
  | [] => (s.nodes.lookup n).isSome
  | op :: ops =>
      (s.nodes.lookup n).isSome && presentAlong (applyOp s op) n ops

/-- Heartbeats equal in every field except possibly `is_blessed`. -/
def eqExceptBlessed (a b : MeshHeartbeat) : Bool :=
  a.service_name == b.service_name && a.transport == b.transport &&
  a.port == b.port && a.active_sessions == b.active_sessions &&
  a.pid == b.pid && a.addr == b.addr &&
  a.sampling_supported == b.sampling_supported

/-- Keys of the node table are unique (the `HashMap` representation
invariant). -/
def WF (s : RegState) : Prop :=
  (s.nodes.map Prod.fst).Nodup

section TableLemmas

theorem lookup_tableInsert_self (t : List (String × MeshNode)) (k : String)
    (v : MeshNode) : (tableInsert t k v).lookup k = some v := by
  simp [tableInsert, List.lookup]

theorem lookup_filter_ne (t : List (String × MeshNode)) (k n : String)
    (h : n ≠ k) :
    (t.filter (fun p => p.1 ≠ k)).lookup n = t.lookup n := by
  induction t with
  | nil => rfl
  | cons p t ih =>
    obtain ⟨pk, pv⟩ := p
    rw [List.filter_cons]
    by_cases hk : pk = k
    · have hd : (decide ((pk, pv).1 ≠ k)) = false := by simp [hk]
      rw [hd]
      have hne : (n == pk) = false := by
        simp only [beq_eq_false_iff_ne, ne_eq]
        rw [hk]
        exact h
      simp only [if_neg (by simp : ¬ (false = true))]
      rw [ih, List.lookup]
      rw [hne]
    · have hd : (decide ((pk, pv).1 ≠ k)) = true := by simp [hk]
      rw [hd, if_pos rfl]
      rw [List.lookup, List.lookup]
      cases hbe : (n == pk) with
      | true => rfl
      | false => exact ih

theorem lookup_tableInsert_ne (t : List (String × MeshNode)) (k n : String)
    (v : MeshNode) (h : n ≠ k) :
    (tableInsert t k v).lookup n = t.lookup n := by
  have hne : (n == k) = false := by simpa using h
  rw [tableInsert, List.lookup, hne]
  exact lookup_filter_ne t k n h

theorem lookup_tableRemove_self (t : List (String × MeshNode)) (k : String) :
    (tableRemove t k).lookup k = none := by
  induction t with
  | nil => rfl
  | cons p t ih =>
    obtain ⟨pk, pv⟩ := p
    rw [tableRemove, List.filter_cons]
    by_cases hk : pk = k
    · have hd : (decide ((pk, pv).1 ≠ k)) = false := by simp [hk]
      rw [hd]
      simpa [tableRemove] using ih
    · have hd : (decide ((pk, pv).1 ≠ k)) = true := by simp [hk]
      rw [hd, if_pos rfl, List.lookup]
      have hne : (k == pk) = false := by
        simp only [beq_eq_false_iff_ne, ne_eq]
        exact fun e => hk e.symm
      rw [hne]
      simpa [tableRemove] using ih

theorem lookup_tableRemove_ne (t : List (String × MeshNode)) (k n : String)
    (h : n ≠ k) : (tableRemove t k).lookup n = t.lookup n :=
  lookup_filter_ne t k n h

theorem lookup_foldl_tableRemove (rs : List String)
    (t : List (String × MeshNode)) (n : String) :
    (rs.foldl tableRemove t).lookup n =
      if n ∈ rs then none else t.lookup n := by
  induction rs generalizing t with
  | nil => simp
  | cons r rs ih =>
    by_cases hn : n = r
    · subst hn
      simp only [List.foldl, List.mem_cons, true_or, if_true]
      rcases em (n ∈ rs) with hmem | hmem
      · simp [ih, hmem]
      · simp [ih, hmem, lookup_tableRemove_self]
    · simp only [List.foldl, List.mem_cons]
      rcases em (n ∈ rs) with hmem | hmem
      · simp [ih, hmem, hn]
      · simp [ih, hmem, hn, lookup_tableRemove_ne _ _ _ hn]

theorem lookup_mem {t : List (String × MeshNode)} {n : String} {v : MeshNode}
    (h : t.lookup n = some v) : (n, v) ∈ t := by
  induction t with
  | nil => simp [List.lookup] at h
  | cons p t ih =>
    obtain ⟨pk, pv⟩ := p
    by_cases hn : n = pk
    · have hbe : (n == pk) = true := by simpa using hn
      rw [List.lookup, hbe] at h
      have hv : pv = v := by
        injection h
      subst hn
      subst hv
      exact List.mem_cons_self _ _
    · have hbe : (n == pk) = false := by simpa using hn
      rw [List.lookup, hbe] at h
      exact List.mem_cons_of_mem _ (ih h)

theorem mem_lookup_of_nodup {t : List (String × MeshNode)} {n : String}
    {v : MeshNode} (hwf : (t.map Prod.fst).Nodup) (h : (n, v) ∈ t) :
    t.lookup n = some v := by
  induction t with
  | nil => simp at h
  | cons p t ih =>
    obtain ⟨pk, pv⟩ := p
    rcases List.mem_cons.mp h with h1 | h1
    · have hk : pk = n := congrArg Prod.fst h1.symm
      have hv : pv = v := congrArg Prod.snd h1.symm
      subst hk
      subst hv
      rw [List.lookup]
      simp
    · have hp : pk ≠ n := by
        intro he
        have hm : n ∈ t.map Prod.fst := List.mem_map.mpr ⟨(n, v), h1, rfl⟩
        rw [List.map_cons, List.nodup_cons, he] at hwf
        exact hwf.1 hm
      have hbe : (n == pk) = false := by
        simp only [beq_eq_false_iff_ne, ne_eq]
        exact fun e => hp e.symm
      rw [List.lookup, hbe]
      exact ih (by
        rw [List.map_cons, List.nodup_cons] at hwf
        exact hwf.2) h1

end TableLemmas

section Samples

/-- A fixed sampler for witnesses. -/
def rand0 : Nat → Fin 62 := fun _ => ⟨0, by decide⟩

/-- A sample heartbeat for service `a`. -/
def sampleHbA : MeshHeartbeat :=
  { service_name := "a", transport := .Streamable, port := 9000,
    active_sessions := 0, pid := none, addr := none,
    sampling_supported := false, is_blessed := false }

/-- A sample registered node for service `a`. -/
def sampleNodeA : MeshNode :=
  { metadata := sampleHbA, last_seen := 0, token := "tokA" }

/-- A sample registry holding only service `a`. -/
def sRegA : RegState := ⟨[("a", sampleNodeA)]⟩

end Samples

section MintLemmas

theorem mintToken_length (rand : Nat → Fin 62) : (mintToken rand).length = 32 := by
  simp [mintToken, String.length]

theorem mintToken_alphanum (rand : Nat → Fin 62) :
    ∀ c ∈ (mintToken rand).data, c.isAlphanum = true := by
  intro c hc
  simp only [mintToken, String.mk, List.mem_map] at hc
  obtain ⟨i, hi, rfl⟩ := hc
  have h62 : ∀ j : Fin 62, (alphanumChars.getD j.val 'A').isAlphanum = true := by
    decide
  exact h62 (rand i)

end MintLemmas

section RegisterLemmas

/-- Either `register` rejects and leaves the table alone, or it overwrites
the service key; in the overwrite case, when an entry already existed the
provided token must have matched the stored one. -/
theorem register_state_token (s : RegState) (hb : MeshHeartbeat)
    (tok : Option String) (now : Nat) (rand : Nat → Fin 62) (projOk : Bool) :
    (register s hb tok now rand projOk).state = s ∨
    ∃ b, (register s hb tok now rand projOk).state.nodes =
        tableInsert s.nodes hb.service_name
          { metadata := { hb with is_blessed := b }, last_seen := now,
            token := tok.getD (mintToken rand) } ∧
      (∀ node, s.nodes.lookup hb.service_name = some node →
        tok = some node.token) := by
  rcases hl : s.nodes.lookup hb.service_name with _ | node
  · rcases tok with _ | t
    · right
      refine ⟨false, ?_, ?_⟩
      · cases projOk <;> simp [register, hl]
      · intro node hn
        exact Option.noConfusion hn
    · right
      refine ⟨false, ?_, ?_⟩
      · cases projOk <;> simp [register, hl]
      · intro node hn
        exact Option.noConfusion hn
  · rcases tok with _ | t
    · left
      simp [register, hl]
    · by_cases hne : node.token = t
      · right
        refine ⟨true, ?_, ?_⟩
        · cases projOk <;> simp [register, hl, hne]
        · intro node' hn
          injection hn with hn
          rw [← hn, hne]
      · left
        simp [register, hl, hne]

/-- A successful `register` overwrote the service key with the returned
token and a registry-chosen blessing. -/
theorem register_ok_state (s : RegState) (hb : MeshHeartbeat)
    (tok : Option String) (now : Nat) (rand : Nat → Fin 62) (projOk : Bool)
    (T : String) (hok : (register s hb tok now rand projOk).result = .ok T) :
    ∃ b, (register s hb tok now rand projOk).state.nodes =
        tableInsert s.nodes hb.service_name
          { metadata := { hb with is_blessed := b }, last_seen := now,
            token := T } := by
  rcases hl : s.nodes.lookup hb.service_name with _ | node
  · rcases tok with _ | t
    · cases projOk
      · simp [register, hl] at hok
      · refine ⟨false, ?_⟩
        simp [register, hl] at hok ⊢
        rw [hok]
    · cases projOk
      · simp [register, hl] at hok
      · refine ⟨false, ?_⟩
        simp [register, hl] at hok ⊢
        rw [hok]
  · rcases tok with _ | t
    · simp [register, hl] at hok
    · by_cases hne : node.token = t
      · cases projOk
        · simp [register, hl, hne] at hok
        · refine ⟨true, ?_⟩
          simp [register, hl, hne] at hok ⊢
          rw [hok]
      · simp [register, hl, hne] at hok

end RegisterLemmas

/-- Claim C1: `register` keys off the presence of an existing entry and the
provided token.  Existing entry: no token is `TokenRequired`, a wrong token
is `InvalidToken`, the matching token succeeds with `is_blessed = true` and
the existing token reused.  No entry: a supplied token is accepted
verbatim; with no token a fresh 32-character alphanumeric token is minted
and the record is not blessed. -/
theorem C1_register_token_policy (s : RegState) (hb : MeshHeartbeat)
    (tok : Option String) (now : Nat) (rand : Nat → Fin 62) (projOk : Bool) :
    (∀ node, s.nodes.lookup hb.service_name = some node →
      (tok = none →
        (register s hb tok now rand projOk).result =
          .error (.TokenRequired hb.service_name)) ∧
      (∀ t, tok = some t → t ≠ node.token →
        (register s hb tok now rand projOk).result =
          .error (.InvalidToken hb.service_name)) ∧
      (tok = some node.token → projOk = true →
        (register s hb tok now rand projOk).result = .ok node.token ∧
        ∃ node', (register s hb tok now rand projOk).state.nodes.lookup
            hb.service_name = some node' ∧
          node'.metadata.is_blessed = true ∧ node'.token = node.token)) ∧
    (s.nodes.lookup hb.service_name = none →
      (∀ t, tok = some t →
        tokenOf (register s hb tok now rand projOk).state hb.service_name =
          some t) ∧
      (tok = none →
        tokenOf (register s hb tok now rand projOk).state hb.service_name =
          some (mintToken rand) ∧
        (mintToken rand).length = 32 ∧
        (∀ c ∈ (mintToken rand).data, c.isAlphanum = true) ∧
        ∃ node', (register s hb tok now rand projOk).state.nodes.lookup
            hb.service_name = some node' ∧
          node'.metadata.is_blessed = false)) := by
  constructor
  · intro node hl
    refine ⟨?_, ?_, ?_⟩
    · rintro rfl
      simp [register, hl]
    · rintro t rfl hne
      have hnt : ¬ (node.token = t) := fun h => hne h.symm
      simp [register, hl, hnt]
    · rintro rfl rfl
      constructor
      · simp [register, hl]
      · have hb1 : (register s hb (some node.token) now rand true).state.nodes =
            tableInsert s.nodes hb.service_name
              { metadata := { hb with is_blessed := true }, last_seen := now,
                token := node.token } := by
          simp [register, hl]
        refine ⟨{ metadata := { hb with is_blessed := true }, last_seen := now,
                  token := node.token }, ?_, rfl, rfl⟩
        rw [hb1, lookup_tableInsert_self]
  · intro hl
    constructor
    · rintro t rfl
      have hb1 : (register s hb (some t) now rand projOk).state.nodes =
          tableInsert s.nodes hb.service_name
            { metadata := { hb with is_blessed := false }, last_seen := now,
              token := t } := by
        cases projOk <;> simp [register, hl]
      rw [tokenOf, hb1, lookup_tableInsert_self]
      rfl
    · rintro rfl
      have hb1 : (register s hb none now rand projOk).state.nodes =
          tableInsert s.nodes hb.service_name
            { metadata := { hb with is_blessed := false }, last_seen := now,
              token := mintToken rand } := by
        cases projOk <;> simp [register, hl]
      refine ⟨?_, mintToken_length rand, mintToken_alphanum rand, ?_⟩
      · rw [tokenOf, hb1, lookup_tableInsert_self]
        rfl
      · refine ⟨{ metadata := { hb with is_blessed := false }, last_seen := now,
                  token := mintToken rand }, ?_, rfl⟩
        rw [hb1, lookup_tableInsert_self]

/-- Witness for C1: with service `a` registered under token `tokA`, an
anonymous re-registration is rejected with `TokenRequired`. -/
theorem C1_register_token_policy_witness :
    (register sRegA sampleHbA none 5 rand0 true).result =
      .error (.TokenRequired "a") :=
  ((C1_register_token_policy sRegA sampleHbA none 5 rand0 true).1
    sampleNodeA rfl).1 rfl

/-- Claim C2: a `register` with a missing or wrong token for an existing
node returns the corresponding error and mutates nothing: the state is
untouched and no store update, ledger line or event is produced. -/
theorem C2_validation_failure_no_mutation (s : RegState) (hb : MeshHeartbeat)
    (tok : Option String) (now : Nat) (rand : Nat → Fin 62) (projOk : Bool)
    (node : MeshNode) (hl : s.nodes.lookup hb.service_name = some node)
    (hbad : tok = none ∨ ∃ t, tok = some t ∧ t ≠ node.token) :
    (register s hb tok now rand projOk).result =
      .error (match tok with
        | none => .TokenRequired hb.service_name
        | some _ => .InvalidToken hb.service_name) ∧
    (register s hb tok now rand projOk).state = s ∧
    (register s hb tok now rand projOk).storeUpdates = [] ∧
    (register s hb tok now rand projOk).journal = [] ∧
    (register s hb tok now rand projOk).events = [] := by
  rcases hbad with rfl | ⟨t, rfl, hne⟩
  · simp [register, hl]
  · have hnt : ¬ (node.token = t) := fun h => hne h.symm
    simp [register, hl, hnt]

/-- Witness for C2: a wrong token for registered service `a` is rejected
as `InvalidToken` and nothing changes. -/
theorem C2_validation_failure_no_mutation_witness :
    (register sRegA sampleHbA (some "wrong") 5 rand0 true).result =
      .error (.InvalidToken "a") ∧
    (register sRegA sampleHbA (some "wrong") 5 rand0 true).state = sRegA :=
  ⟨(C2_validation_failure_no_mutation sRegA sampleHbA (some "wrong") 5 rand0
      true sampleNodeA rfl (Or.inr ⟨"wrong", rfl, by decide⟩)).1,
   (C2_validation_failure_no_mutation sRegA sampleHbA (some "wrong") 5 rand0
      true sampleNodeA rfl (Or.inr ⟨"wrong", rfl, by decide⟩)).2.1⟩

section TraceLemmas

theorem presentAlong_head {s : RegState} {n : String} {ops : List Op}
    (h : presentAlong s n ops = true) : (s.nodes.lookup n).isSome := by
  cases ops with
  | nil => simpa [presentAlong] using h
  | cons op ops =>
    rw [presentAlong, Bool.and_eq_true] at h
    exact h.1

theorem presentAlong_tail {s : RegState} {n : String} {op : Op}
    {ops : List Op} (h : presentAlong s n (op :: ops) = true) :
    presentAlong (applyOp s op) n ops = true := by
  rw [presentAlong, Bool.and_eq_true] at h
  exact h.2

/-- One operation never changes the token of a service that remains in
the table across it. -/
theorem tokenOf_applyOp_preserved (s : RegState) (op : Op) (n : String)
    (T : String) (hT : tokenOf s n = some T)
    (hpres : ((applyOp s op).nodes.lookup n).isSome) :
    tokenOf (applyOp s op) n = some T := by
  obtain ⟨node, hn, htok⟩ : ∃ node, s.nodes.lookup n = some node ∧
      node.token = T := by
    rw [tokenOf] at hT
    rcases hl : s.nodes.lookup n with _ | node
    · rw [hl] at hT
      exact Option.noConfusion hT
    · rw [hl] at hT
      exact ⟨node, rfl, Option.some.inj hT⟩
  cases op with
  | reg hb tok now rand projOk =>
    rcases register_state_token s hb tok now rand projOk with heq | ⟨b, heq, himp⟩
    · rw [applyOp, heq]
      exact hT
    · by_cases hname : hb.service_name = n
      · have hmatch : tok = some node.token := himp node (hname ▸ hn)
        rw [applyOp, tokenOf, heq, hname, lookup_tableInsert_self]
        rw [hmatch]
        simp [htok]
      · rw [applyOp, tokenOf, heq,
          lookup_tableInsert_ne _ _ _ _ (fun e => hname e.symm)]
        rw [tokenOf] at hT
        exact hT
  | cleanup now =>
    rw [applyOp, cleanup_zombies] at hpres ⊢
    rw [tokenOf]
    rw [lookup_foldl_tableRemove] at hpres ⊢
    rcases em (n ∈ ((s.nodes.filter
        (fun p => now - p.2.last_seen > staleNanos)).map Prod.fst)) with hmem | hmem
    · rw [if_pos hmem] at hpres
      exact absurd hpres (by simp)
    · rw [if_neg hmem, hn]
      simp [htok]
  | getNodes => exact hT
  | validate m t => exact hT

end TraceLemmas

/-- Claim C3: along any sequence of register, reaper-cleanup, `get_nodes`
and `validate_token` operations during which a node stays in the table,
its token never changes: whatever token it holds at the start it still
holds at the end. -/
theorem C3_token_never_rotated (ops : List Op) (s : RegState) (n : String)
    (T : String) (hT : tokenOf s n = some T)
    (hpres : presentAlong s n ops = true) :
    tokenOf (applyOps s ops) n = some T := by
  induction ops generalizing s with
  | nil => exact hT
  | cons op ops ih =>
    have h1 : presentAlong (applyOp s op) n ops = true := presentAlong_tail hpres
    have h2 : ((applyOp s op).nodes.lookup n).isSome := presentAlong_head h1
    have h3 : tokenOf (applyOp s op) n = some T :=
      tokenOf_applyOp_preserved s op n T hT h2
    exact ih (applyOp s op) h3 h1

/-- Witness for C3: service `a` keeps token `tokA` across a blessed
re-registration, a reaper pass that does not find it stale, and a
`get_nodes` snapshot. -/
theorem C3_token_never_rotated_witness :
    tokenOf (applyOps sRegA
      [.reg sampleHbA (some "tokA") 10 rand0 true, .cleanup 20, .getNodes])
      "a" = some "tokA" :=
  C3_token_never_rotated
    [.reg sampleHbA (some "tokA") 10 rand0 true, .cleanup 20, .getNodes]
    sRegA "a" "tokA" rfl (by decide)

/-- Claim C4: after a successful `register hb` returning token `T`,
`get_nodes` contains a heartbeat equal to `hb` in every field except
possibly `is_blessed`, and `validate_token hb.service_name T` holds. -/
theorem C4_register_then_query (s : RegState) (hb : MeshHeartbeat)
    (tok : Option String) (now : Nat) (rand : Nat → Fin 62) (projOk : Bool)
    (T : String) (hok : (register s hb tok now rand projOk).result = .ok T) :
    (∃ hb' ∈ get_nodes (register s hb tok now rand projOk).state,
      eqExceptBlessed hb' hb = true) ∧
    validate_token (register s hb tok now rand projOk).state
      hb.service_name T = true := by
  obtain ⟨b, hstate⟩ := register_ok_state s hb tok now rand projOk T hok
  constructor
  · refine ⟨{ hb with is_blessed := b }, ?_, ?_⟩
    · rw [get_nodes, hstate, tableInsert]
      exact List.mem_map.mpr ⟨_, List.mem_cons_self _ _, rfl⟩
    · simp [eqExceptBlessed]
  · rw [validate_token, hstate, lookup_tableInsert_self]
    simp

/-- Witness for C4: a first registration on the empty registry with a
caller-supplied token is visible in `get_nodes` and validates. -/
theorem C4_register_then_query_witness :
    (∃ hb' ∈ get_nodes (register ⟨[]⟩ sampleHbA (some "tokZ") 3 rand0
        true).state, eqExceptBlessed hb' sampleHbA = true) ∧
    validate_token (register ⟨[]⟩ sampleHbA (some "tokZ") 3 rand0 true).state
      "a" "tokZ" = true :=
  C4_register_then_query ⟨[]⟩ sampleHbA (some "tokZ") 3 rand0 true "tokZ" rfl

/-- Claim C5: the resource projected for a heartbeat is keyed
`mesh-` ++ service name, is a Backend in namespace `default`, and holds
exactly one MCP target named `primary` referencing `localhost` at the
heartbeat port, with path `/sse` for Sse and `/mcp` for Streamable and a
protocol discriminator that distinguishes the two transports. -/
theorem C5_projection_shape (hb : MeshHeartbeat) :
    ∃ b : XdsBackend,
      project_to_adp hb =
        .Update ("mesh-" ++ hb.service_name) ⟨some (.Backend b)⟩ ∧
      b.key = "mesh-" ++ hb.service_name ∧
      b.name = some ⟨hb.service_name, "default"⟩ ∧
      ∃ t : XdsMcpTarget,
        b.mcp.map XdsMcpBackend.targets = some [t] ∧
        t.name = "primary" ∧
        t.backend = some ⟨hb.port, some ⟨"default", "localhost"⟩⟩ ∧
        t.path = (match hb.transport with
          | .Sse => "/sse"
          | .Streamable => "/mcp") ∧
        t.protocol = protoDisc hb.transport ∧
        protoDisc .Sse ≠ protoDisc .Streamable := by
  refine ⟨_, rfl, rfl, rfl, _, rfl, rfl, rfl, ?_, ?_, ?_⟩
  · cases hb.transport <;> rfl
  · rfl
  · decide

/-- Claim C6: one reaper pass removes a node exactly when its age
`now - last_seen` strictly exceeds 90 seconds; a node aged exactly 90
seconds survives unchanged. -/
theorem C6_reaper_boundary (s : RegState) (now : Nat) (n : String)
    (node : MeshNode) (hwf : WF s)
    (hn : s.nodes.lookup n = some node) :
    ((cleanup_zombies s now).state.nodes.lookup n = none ↔
      now - node.last_seen > staleNanos) ∧
    (now - node.last_seen ≤ staleNanos →
      (cleanup_zombies s now).state.nodes.lookup n = some node) := by
  have hmem_iff : (n ∈ (s.nodes.filter
      (fun p => now - p.2.last_seen > staleNanos)).map Prod.fst) ↔
      now - node.last_seen > staleNanos := by
    constructor
    · intro hmem
      obtain ⟨p, hp, hpn⟩ := List.mem_map.mp hmem
      obtain ⟨hpmem, hstale⟩ := List.mem_filter.mp hp
      obtain ⟨pk, pv⟩ := p
      have hstale2 : now - pv.last_seen > staleNanos :=
        of_decide_eq_true hstale
      have hpn2 : pk = n := hpn
      have hlk : s.nodes.lookup pk = some pv := mem_lookup_of_nodup hwf hpmem
      rw [hpn2, hn] at hlk
      injection hlk with hlk
      rw [hlk]
      exact hstale2
    · intro hstale
      refine List.mem_map.mpr ⟨(n, node), ?_, rfl⟩
      exact List.mem_filter.mpr ⟨lookup_mem hn, decide_eq_true hstale⟩
  have hlook : (cleanup_zombies s now).state.nodes.lookup n =
      if n ∈ (s.nodes.filter
          (fun p => now - p.2.last_seen > staleNanos)).map Prod.fst then none
      else s.nodes.lookup n := by
    rw [cleanup_zombies]
    exact lookup_foldl_tableRemove _ _ _
  constructor
  · rw [hlook]
    constructor
    · intro hnone
      by_contra hfresh
      rw [if_neg (fun hmem => hfresh (hmem_iff.mp hmem)), hn] at hnone
      exact Option.noConfusion hnone
    · intro hstale
      rw [if_pos (hmem_iff.mpr hstale)]
  · intro hfresh
    rw [hlook, if_neg (fun hmem => absurd (hmem_iff.mp hmem)
      (not_lt.mpr hfresh)), hn]

/-- Witness for C6: service `a` last seen at 0 survives a reaper pass at
exactly 90 seconds and is evicted one nanosecond later. -/
theorem C6_reaper_boundary_witness :
    (cleanup_zombies sRegA staleNanos).state.nodes.lookup "a" =
      some sampleNodeA ∧
    (cleanup_zombies sRegA (staleNanos + 1)).state.nodes.lookup "a" =
      none :=
  ⟨(C6_reaper_boundary sRegA staleNanos "a" sampleNodeA
      (by unfold WF; decide) rfl).2 (by decide),
   ((C6_reaper_boundary sRegA (staleNanos + 1) "a" sampleNodeA
      (by unfold WF; decide) rfl).1).mpr (by decide)⟩

/-- Projection from a ledger line: the `isBlessed` field its metadata
serialized, when present. -/
def blessedField (e : LedgerEntry) : Option Bool :=
  match e.metadata.get? "isBlessed" with
  | some (.bool b) => some b
  | _ => none

/-- Counterexample for C7: two register calls identical except the input
`is_blessed` flag append ledger records whose metadata serializes the
input flag verbatim, so those records differ. -/
theorem C7_counterexample :
    (register ⟨[]⟩ sampleHbA (some "tokA") 0 rand0 true).journal.map
        blessedField ≠
    (register ⟨[]⟩ { sampleHbA with is_blessed := true } (some "tokA") 0
        rand0 true).journal.map blessedField := by
  decide

/-- Claim C7 as amended: the registry never trusts the input `is_blessed`
for any output except the ledger line: the result, the stored table, the
config-store updates and the broadcast events of `register` are identical
for inputs differing only in `is_blessed`; the ledger metadata, which
serializes the input heartbeat verbatim, is exempt. -/
theorem C7_blessed_not_trusted (s : RegState) (tok : Option String)
    (now : Nat) (rand : Nat → Fin 62) (projOk : Bool) (hb : MeshHeartbeat)
    (b : Bool) :
    (register s hb tok now rand projOk).result =
      (register s { hb with is_blessed := b } tok now rand projOk).result ∧
    (register s hb tok now rand projOk).state =
      (register s { hb with is_blessed := b } tok now rand projOk).state ∧
    (register s hb tok now rand projOk).storeUpdates =
      (register s { hb with is_blessed := b } tok now rand
        projOk).storeUpdates ∧
    (register s hb tok now rand projOk).events =
      (register s { hb with is_blessed := b } tok now rand projOk).events := by
  cases hb with
  | mk sn tr po ac pid addr ss ib =>
    rcases hl : s.nodes.lookup sn with _ | node
    · rcases tok with _ | t <;> cases projOk <;>
        simp [register, hl, project_to_adp]
    · rcases tok with _ | t
      · simp [register, hl]
      · by_cases hne : node.token = t
        · cases projOk <;> simp [register, hl, hne, project_to_adp]
        · simp [register, hl, hne]

/-- Predicate for C8: the token check of `register` passes (no entry, or
the provided token equals the stored one). -/
def tokenCheckPasses (s : RegState) (name : String)
    (tok : Option String) : Prop :=
  match s.nodes.lookup name with
  | none => True
  | some node => tok = some node.token

/-- Claim C8: when the token check passes but the config-store projection
fails, `register` returns `ProjectionFailed`, the in-memory entry is still
updated (not rolled back), and no ledger line or event is produced. -/
theorem C8_projection_failure (s : RegState) (hb : MeshHeartbeat)
    (tok : Option String) (now : Nat) (rand : Nat → Fin 62)
    (hok : tokenCheckPasses s hb.service_name tok) :
    (register s hb tok now rand false).result = .error .ProjectionFailed ∧
    (register s hb tok now rand false).state.nodes =
      tableInsert s.nodes hb.service_name
        { metadata := { hb with
            is_blessed := (s.nodes.lookup hb.service_name).isSome },
          last_seen := now, token := tok.getD (mintToken rand) } ∧
    (register s hb tok now rand false).storeUpdates = [project_to_adp hb] ∧
    (register s hb tok now rand false).journal = [] ∧
    (register s hb tok now rand false).events = [] := by
  rw [tokenCheckPasses] at hok
  rcases hl : s.nodes.lookup hb.service_name with _ | node
  · rcases tok with _ | t <;> simp [register, hl]
  · rw [hl] at hok
    rw [hok]
    simp [register, hl]

/-- Witness for C8: a blessed re-registration of `a` under a failing
projection returns `ProjectionFailed` yet refreshes the entry, with no
ledger line and no event. -/
theorem C8_projection_failure_witness :
    (register sRegA sampleHbA (some "tokA") 7 rand0 false).result =
      .error .ProjectionFailed ∧
    (register sRegA sampleHbA (some "tokA") 7 rand0 false).journal = [] ∧
    (register sRegA sampleHbA (some "tokA") 7 rand0 false).events = [] :=
  ⟨(C8_projection_failure sRegA sampleHbA (some "tokA") 7 rand0 rfl).1,
   (C8_projection_failure sRegA sampleHbA (some "tokA") 7 rand0 rfl).2.2.2.1,
   (C8_projection_failure sRegA sampleHbA (some "tokA") 7 rand0 rfl).2.2.2.2⟩

theorem validate_token_true_iff (s : RegState) (n t : String) :
    validate_token s n t = true ↔
      ∃ node, s.nodes.lookup n = some node ∧ node.token = t := by
  rw [validate_token]
  rcases hl : s.nodes.lookup n with _ | node
  · simp
  · simp

/-- Counterexample for C9: a POST body that is valid JSON but lacks the
`logs` array, sent with a token valid for its `serviceName`, is answered
200, not the 400 the claim requires for a body that is not of the shape
`\x7bserviceName: string, logs: array\x7d`. -/
theorem C9_counterexample :
    logsShape (.obj [("serviceName", .str "a")]) = false ∧
    (handle_mesh_logs sRegA .POST (some "tokA")
      (some (.obj [("serviceName", .str "a")]))).1.status = 200 := by
  constructor
  · rfl
  · rfl

/-- Claim C9 as amended: for `/mesh/logs`, a non-POST method yields 405; a
body that fails to read or to parse as JSON yields 400; any valid JSON
body is accepted, with `serviceName` defaulting to `unknown` when absent:
a missing `X-Mesh-Token` or one that does not validate for that name
yields 403 with no log forwarded; otherwise the response is 200 with body
`logs processed` and the elements of the `logs` field, when it is an
array, are forwarded at info level under the `mesh_leaf` target tagged
with the service name (no log is forwarded when `logs` is absent or not
an array). -/
theorem C9_logs_endpoint (s : RegState) (tok : Option String)
    (body : Option Json) :
    (∀ m, m ≠ Method.POST →
      handle_mesh_logs s m tok body = ({ status := 405, body := "" }, [])) ∧
    (body = none →
      handle_mesh_logs s .POST tok body =
        ({ status := 400, body := "failed to parse log payload\n" }, [])) ∧
    (∀ j, body = some j →
      ((tok = none ∨ ∀ t, tok = some t →
          validate_token s
            (((j.get? "serviceName").bind Json.asStr).getD "unknown") t =
            false) →
        handle_mesh_logs s .POST tok body =
          ({ status := 403, body := "invalid mesh token\n" }, [])) ∧
      (∀ t, tok = some t →
        validate_token s
          (((j.get? "serviceName").bind Json.asStr).getD "unknown") t =
          true →
        handle_mesh_logs s .POST tok body =
          ({ status := 200, body := "logs processed\n" },
           (((j.get? "logs").bind Json.asArr).getD []).map (fun l =>
             { target := "mesh_leaf", level := "info",
               service :=
                 ((j.get? "serviceName").bind Json.asStr).getD "unknown",
               log := l })))) := by
  refine ⟨?_, ?_, ?_⟩
  · intro m hm
    cases m with
    | POST => exact absurd rfl hm
    | GET => rfl
    | PUT => rfl
    | DELETE => rfl
  · rintro rfl
    rfl
  · rintro j rfl
    constructor
    · intro hbad
      rcases tok with _ | t
      · rfl
      · rcases hbad with h | hall
        · exact Option.noConfusion h
        · have hv := hall t rfl
          simp [handle_mesh_logs, hv]
    · rintro t rfl hv
      simp [handle_mesh_logs, hv]

/-- Witness for C9: a well-formed logs POST for registered service `a`
with its token is answered 200 and forwards its (empty) logs array. -/
theorem C9_logs_endpoint_witness :
    handle_mesh_logs sRegA .POST (some "tokA")
      (some (.obj [("serviceName", .str "a"), ("logs", .arr [])])) =
      ({ status := 200, body := "logs processed\n" }, []) :=
  ((C9_logs_endpoint sRegA (some "tokA")
      (some (.obj [("serviceName", .str "a"), ("logs", .arr [])]))).2.2
    (.obj [("serviceName", .str "a"), ("logs", .arr [])]) rfl).2
    "tokA" rfl rfl

/-- A sample node registered under the literal name `unknown`. -/
def sampleNodeU : MeshNode :=
  { metadata := { sampleHbA with service_name := "unknown" },
    last_seen := 0, token := "u1" }

/-- A sample registry holding only the node named `unknown`. -/
def sRegU : RegState := ⟨[("unknown", sampleNodeU)]⟩

/-- Claim C10: when a valid JSON logs body has no `serviceName` string
field the handler substitutes the literal name `unknown`: the request is
answered 200 (forwarding the logs array, when present) exactly when a node
named `unknown` is registered and the provided token equals its token;
otherwise it is answered 403. -/
theorem C10_unknown_service_default (s : RegState) (tok : Option String)
    (j : Json) (hname : (j.get? "serviceName").bind Json.asStr = none) :
    ((handle_mesh_logs s .POST tok (some j)).1.status = 200 ↔
      ∃ t node, tok = some t ∧ s.nodes.lookup "unknown" = some node ∧
        node.token = t) ∧
    ((handle_mesh_logs s .POST tok (some j)).1.status ≠ 200 →
      (handle_mesh_logs s .POST tok (some j)).1 =
        { status := 403, body := "invalid mesh token\n" }) ∧
    ((handle_mesh_logs s .POST tok (some j)).1.status = 200 →
      (handle_mesh_logs s .POST tok (some j)).2 =
        (((j.get? "logs").bind Json.asArr).getD []).map (fun l =>
          { target := "mesh_leaf", level := "info", service := "unknown",
            log := l })) := by
  have hsn : (((j.get? "serviceName").bind Json.asStr)).getD "unknown" =
      "unknown" := by
    rw [hname]
    rfl
  rcases tok with _ | t
  · refine ⟨?_, ?_, ?_⟩
    · simp [handle_mesh_logs]
    · intro _
      rfl
    · intro h
      exact absurd h (by simp [handle_mesh_logs])
  · by_cases hv : validate_token s "unknown" t = true
    · obtain ⟨node, hn, htk⟩ := (validate_token_true_iff s "unknown" t).mp hv
      have hvs : validate_token s
          ((((j.get? "serviceName").bind Json.asStr)).getD "unknown") t =
          true := by
        rw [hsn]
        exact hv
      refine ⟨?_, ?_, ?_⟩
      · constructor
        · intro _
          exact ⟨t, node, rfl, hn, htk⟩
        · intro _
          simp [handle_mesh_logs, hvs]
      · intro h
        exact absurd (by simp [handle_mesh_logs, hvs]) h
      · intro _
        simp [handle_mesh_logs, hvs, hsn, hv]
    · have hvs : validate_token s
          ((((j.get? "serviceName").bind Json.asStr)).getD "unknown") t =
          false := by
        rw [hsn]
        exact Bool.not_eq_true _ ▸ hv
      refine ⟨?_, ?_, ?_⟩
      · constructor
        · intro h
          rw [show (handle_mesh_logs s .POST (some t) (some j)).1.status =
              403 from by simp [handle_mesh_logs, hvs]] at h
          exact absurd h (by decide)
        · rintro ⟨t2, node, ht2, hn, htk⟩
          injection ht2 with ht2
          rw [← ht2] at htk
          exact absurd ((validate_token_true_iff s "unknown" t).mpr
            ⟨node, hn, htk⟩) hv
      · intro _
        simp [handle_mesh_logs, hvs]
      · intro h
        rw [show (handle_mesh_logs s .POST (some t) (some j)).1.status =
            403 from by simp [handle_mesh_logs, hvs]] at h
        exact absurd h (by decide)

/-- Witness for C10: with a node registered under the literal name
`unknown` and its token supplied, a logs body with no `serviceName` is
answered 200. -/
theorem C10_unknown_service_default_witness :
    (handle_mesh_logs sRegU .POST (some "u1")
      (some (.obj [("logs", .arr [])]))).1.status = 200 :=
  (C10_unknown_service_default sRegU (some "u1")
    (.obj [("logs", .arr [])]) rfl).1.mpr ⟨"u1", sampleNodeU, rfl, rfl, rfl⟩

end AgentMesh
